import Mathlib

/-!
Verification of the priority task runner in
`apps/agent-services/task_runners/service.py`.

The Python classes `Task`, `TaskQueue` and `TaskRunner` are shallowly
embedded as Lean structures, and the runner's operations (`submit_task`,
the worker loop `_worker` / `_execute_task`, `cancel_task`,
`get_task_status`, `start`, `stop`) become pure state-transition
functions on a `TaskRunner` record.

Modelling conventions:
* `datetime.utcnow()` is a logical clock (`Nat`) stored in the state and
  advanced by each operation that could read the time.
* A task's callable (`task.function`) is embedded as a function
  `Nat → Except String Nat` giving the outcome of the attempt whose
  index equals the task's current `retries` value: `Except.ok r` models
  a normal return with result `r`, `Except.error e` models the callable
  raising an exception whose string form is `e`.
* Python object identity: the runner stores `Task` *objects* in its
  queue and in the `active_tasks` / `completed_tasks` dicts, and on a
  retry it re-submits the very same object.  We model the object store
  explicitly: the `tasks` field is a heap mapping an id to the unique
  `Task` object carrying that id, and the queue lanes and both tables
  hold ids.  Every dict access `d[task.task_id]` in the source becomes
  a heap lookup here.
* `asyncio` interleaving: under cooperative scheduling, the worker body
  is atomic except while awaiting the task's own callable.  A worker
  step is therefore split into `workerBegin` (dequeue, insert into the
  active table, mark Running — lines 157–181 of the source, no yield
  point in between) and `workerFinish` (the callable's outcome plus the
  worker's move-to-completed — lines 185–215 and 165–168).  `cancel_task`
  contains no await and may run between the two.
-/

namespace TaskRunners

/-- `TaskStatus` enum of the source (service.py lines 17–24). -/
inductive TaskStatus where
  | pending
  | running
  | completed
  | failed
  | cancelled
  | retrying
deriving DecidableEq, Repr

/-- `TaskPriority` enum of the source (service.py lines 27–32). -/
inductive TaskPriority where
  | low
  | medium
  | high
  | urgent
deriving DecidableEq, Repr

/-- The `Task` dataclass (service.py lines 35–51).  `task_id` is a `Nat`
(the source uses a fresh UUID string; freshness is what matters), times
are logical-clock values, and `function` together with `args`/`kwargs`
is embedded as the attempt-indexed outcome function described above. -/
structure Task where
  task_id : Nat
  name : String
  function : Nat → Except String Nat
  priority : TaskPriority
  status : TaskStatus
  created_at : Nat
  started_at : Option Nat
  completed_at : Option Nat
  result : Option Nat
  error : Option String
  retries : Nat
  max_retries : Nat

/-- The dictionary produced by `Task.to_dict` (service.py lines 53–66):
all fields of the task except the callable, by value. -/
structure TaskSnapshot where
  task_id : Nat
  name : String
  priority : TaskPriority
  status : TaskStatus
  created_at : Nat
  started_at : Option Nat
  completed_at : Option Nat
  result : Option Nat
  error : Option String
  retries : Nat
  max_retries : Nat
deriving DecidableEq, Repr

/-- `Task.to_dict` (service.py lines 53–66). -/
def Task.to_dict (t : Task) : TaskSnapshot :=
  { task_id := t.task_id
    name := t.name
    priority := t.priority
    status := t.status
    created_at := t.created_at
    started_at := t.started_at
    completed_at := t.completed_at
    result := t.result
    error := t.error
    retries := t.retries
    max_retries := t.max_retries }

/-- `TaskQueue` (service.py lines 69–78): one unbounded FIFO lane per
priority.  Generic in the element type: the stand-alone queue of the
source holds `Task` objects, the runner's instance holds task ids
(heap references). -/
structure TaskQueue (α : Type) where
  urgent : List α
  high : List α
  medium : List α
  low : List α

def TaskQueue.empty {α : Type} : TaskQueue α :=
  { urgent := [], high := [], medium := [], low := [] }

/-- The lane of one priority (`self.queues[p]` in the source). -/
def TaskQueue.lane {α : Type} (q : TaskQueue α) : TaskPriority → List α
  | .urgent => q.urgent
  | .high => q.high
  | .medium => q.medium
  | .low => q.low

def TaskQueue.setLane {α : Type} (q : TaskQueue α) (p : TaskPriority) (l : List α) :
    TaskQueue α :=
  match p with
  | .urgent => { q with urgent := l }
  | .high => { q with high := l }
  | .medium => { q with medium := l }
  | .low => { q with low := l }

/-- Append an element to the lane of priority `p`
(`self.queues[p].put(x)`; an `asyncio.Queue` is unbounded, so the put
always succeeds without blocking). -/
def TaskQueue.putLane {α : Type} (q : TaskQueue α) (p : TaskPriority) (x : α) :
    TaskQueue α :=
  match p with
  | .urgent => { q with urgent := q.urgent ++ [x] }
  | .high => { q with high := q.high ++ [x] }
  | .medium => { q with medium := q.medium ++ [x] }
  | .low => { q with low := q.low ++ [x] }

/-- `TaskQueue.put` (service.py lines 80–83): the source reads the
lane out of the task itself. -/
def TaskQueue.put (q : TaskQueue Task) (t : Task) : TaskQueue Task :=
  q.putLane t.priority t

/-- `TaskQueue.get` (service.py lines 85–105): scan the lanes in the
fixed order urgent, high, medium, low and pop the front of the first
non-empty one.  When every lane is empty the source suspends the caller
(sleep-and-rescan loop); the embedding returns `none` for that case. -/
def TaskQueue.get {α : Type} (q : TaskQueue α) : Option (α × TaskQueue α) :=
  match q.urgent with
  | x :: rest => some (x, { q with urgent := rest })
  | [] =>
    match q.high with
    | x :: rest => some (x, { q with high := rest })
    | [] =>
      match q.medium with
      | x :: rest => some (x, { q with medium := rest })
      | [] =>
        match q.low with
        | x :: rest => some (x, { q with low := rest })
        | [] => none

/-- The scan order named by the spec (§4.1). -/
def priorityScanOrder : List TaskPriority :=
  [.urgent, .high, .medium, .low]

/-- Spec-side description of `get`, transcribed from the spec's words
(§4.1): "returns the task at the front of the highest-priority
non-empty lane, scanning lanes in fixed order {Urgent, High, Medium,
Low}".  Used only to compare against `TaskQueue.get` above. -/
def TaskQueue.getSpec {α : Type} (q : TaskQueue α) : Option (α × TaskQueue α) :=
  match priorityScanOrder.find? (fun p => !(q.lane p).isEmpty) with
  | none => none
  | some p =>
    match q.lane p with
    | [] => none
    | x :: rest => some (x, q.setLane p rest)

/-- All ids held in the queue, in scan order. -/
def TaskQueue.ids (q : TaskQueue Nat) : List Nat :=
  q.urgent ++ q.high ++ q.medium ++ q.low

/-- Heap lookup: the `Task` object currently carrying id `id`. -/
def lookupTask : List (Nat × Task) → Nat → Option Task
  | [], _ => none
  | (k, t) :: rest, id => if k = id then some t else lookupTask rest id

/-- Heap update / dict assignment `d[id] = t`. -/
def setTask : List (Nat × Task) → Nat → Task → List (Nat × Task)
  | [], id, t => [(id, t)]
  | (k, u) :: rest, id, t =>
    if k = id then (k, t) :: rest else (k, u) :: setTask rest id t

/-- Dict-key insertion for the id sets modelling `active_tasks` and
`completed_tasks` (`d[id] = obj` adds the key if absent). -/
def insertSet (l : List Nat) (id : Nat) : List Nat :=
  if id ∈ l then l else l ++ [id]

/-- The `TaskRunner` class state (service.py lines 108–117) plus the
model-level heap (`tasks`), in-flight set (`executing`), fresh-id
counter and logical clock. -/
structure TaskRunner where
  task_queue : TaskQueue Nat
  tasks : List (Nat × Task)
  active_tasks : List Nat
  completed_tasks : List Nat
  executing : List Nat
  workers : Nat
  max_workers : Nat
  is_running : Bool
  nextId : Nat
  clock : Nat

/-- Fresh runner, `TaskRunner.__init__` (lines 111–117). -/
def initRunner (max_workers : Nat) : TaskRunner :=
  { task_queue := TaskQueue.empty
    tasks := []
    active_tasks := []
    completed_tasks := []
    executing := []
    workers := 0
    max_workers := max_workers
    is_running := false
    nextId := 0
    clock := 0 }

/-- `TaskRunner.start` (lines 119–131): no-op when already running,
otherwise mark running and spawn `max_workers` workers. -/
def TaskRunner.start (s : TaskRunner) : TaskRunner :=
  if s.is_running then s
  else { s with is_running := true, workers := s.workers + s.max_workers }

/-- `TaskRunner.stop` (lines 133–148): no-op when not running;
otherwise clear `is_running`, cancel every worker (`worker.cancel()` —
a worker awaiting a task's callable is killed there, abandoning the
in-flight execution, which is why `executing` empties while
`active_tasks` keeps the abandoned ids), await them all
(`asyncio.gather` with no timeout) and clear the worker list.  The
second component is the partial-shutdown warning surfaced to the
caller: the source has none, so it is always `none`. -/
def TaskRunner.stop (s : TaskRunner) : TaskRunner × Option String :=
  if s.is_running then
    ({ s with is_running := false, workers := 0, executing := [] }, none)
  else (s, none)

/-- `TaskRunner.submit_task` (lines 217–244): build a fresh pending
task, put it on the queue, return its id.  Touches neither table. -/
def TaskRunner.submit_task (s : TaskRunner) (name : String)
    (function : Nat → Except String Nat) (priority : TaskPriority)
    (max_retries : Nat) : Nat × TaskRunner :=
  let id := s.nextId
  let t : Task :=
    { task_id := id
      name := name
      function := function
      priority := priority
      status := .pending
      created_at := s.clock
      started_at := none
      completed_at := none
      result := none
      error := none
      retries := 0
      max_retries := max_retries }
  (id,
    { s with
      tasks := setTask s.tasks id t
      task_queue := s.task_queue.putLane priority id
      nextId := id + 1
      clock := s.clock + 1 })

/-- First half of `_execute_task` (lines 180–181): mark Running and
stamp `started_at`.  Runs before the callable is awaited. -/
def execBegin (t : Task) (now : Nat) : Task :=
  { t with status := .running, started_at := some now }

/-- Second half of `_execute_task` (lines 185–215): apply the
callable's outcome.  Returns the updated task and whether it was
re-queued for retry (the early-`return` path at line 209). -/
def execFinish (t : Task) (now : Nat) : Task × Bool :=
  match t.function t.retries with
  | .ok r =>
    ({ t with result := some r, status := .completed, completed_at := some now }, false)
  | .error e =>
    let t1 := { t with error := some e, retries := t.retries + 1 }
    if t1.retries ≤ t1.max_retries then
      ({ t1 with status := .retrying }, true)
    else
      ({ t1 with status := .failed, completed_at := some now }, false)

/-- The atomic stretch of `_worker` from the dequeue through the start
of execution (lines 154–163 plus 180–181): runs only while
`is_running` holds and a spawned worker is free; takes the task
returned by `TaskQueue.get`, inserts it into the active table and marks
it Running.  No-op when no worker is free or the queue is empty. -/
def workerBegin (s : TaskRunner) : TaskRunner :=
  if s.is_running then
    if s.executing.length < s.workers then
      match s.task_queue.get with
      | some (id, q) =>
        match lookupTask s.tasks id with
        | some t =>
          { s with
            task_queue := q
            active_tasks := insertSet s.active_tasks id
            tasks := setTask s.tasks id (execBegin t s.clock)
            executing := s.executing ++ [id]
            clock := s.clock + 1 }
        | none => { s with task_queue := q }
      | none => s
    else s
  else s

/-- The atomic stretch of `_worker` from the callable's return to the
end of the loop body: the outcome branch of `_execute_task` (lines
185–215, including the retry re-queue at line 208) followed by the
worker's unconditional move of the task into the completed table
(lines 165–168).  `id` selects which in-flight execution finishes. -/
def workerFinish (s : TaskRunner) (id : Nat) : TaskRunner :=
  if id ∈ s.executing then
    match lookupTask s.tasks id with
    | some t =>
      let r := execFinish t s.clock
      { s with
        tasks := setTask s.tasks id r.1
        task_queue :=
          cond r.2 (s.task_queue.putLane r.1.priority id) s.task_queue
        active_tasks := s.active_tasks.erase id
        completed_tasks := insertSet s.completed_tasks id
        executing := s.executing.erase id
        clock := s.clock + 1 }
    | none => s
  else s

/-- `TaskRunner.get_task_status` (lines 246–256): active table first,
then completed table, else an explicit `none` — the function is total
and never throws. -/
def TaskRunner.get_task_status (s : TaskRunner) (id : Nat) : Option TaskSnapshot :=
  if id ∈ s.active_tasks then (lookupTask s.tasks id).map Task.to_dict
  else if id ∈ s.completed_tasks then (lookupTask s.tasks id).map Task.to_dict
  else none

/-- `TaskRunner.cancel_task` (lines 281–293): if the id is in the
active table, mark the task Cancelled, stamp `completed_at` and return
`true`; otherwise return `false` and change nothing.  It does not
remove the id from any table or from the queue. -/
def TaskRunner.cancel_task (s : TaskRunner) (id : Nat) : Bool × TaskRunner :=
  if id ∈ s.active_tasks then
    match lookupTask s.tasks id with
    | some t =>
      (true,
        { s with
          tasks := setTask s.tasks id
            { t with status := .cancelled, completed_at := some s.clock }
          clock := s.clock + 1 })
    | none => (true, s)
  else (false, s)

/-- One observable operation on the runner. -/
inductive Action where
  | start
  | stop
  | submit (name : String) (function : Nat → Except String Nat)
      (priority : TaskPriority) (max_retries : Nat)
  | begin_exec
  | finish_exec (id : Nat)
  | cancel (id : Nat)

/-- Deterministic transition function. -/
def step (s : TaskRunner) : Action → TaskRunner
  | .start => s.start
  | .stop => (s.stop).1
  | .submit n f p m => (s.submit_task n f p m).2
  | .begin_exec => workerBegin s
  | .finish_exec id => workerFinish s id
  | .cancel id => (s.cancel_task id).2

def run (s : TaskRunner) (as : List Action) : TaskRunner :=
  as.foldl step s

/-- A state reachable from a fresh runner by some operation sequence. -/
def Reachable (s : TaskRunner) : Prop :=
  ∃ w as, s = run (initRunner w) as

/-! ### Heap, id-set and queue lemmas -/

theorem lookupTask_setTask_self (h : List (Nat × Task)) (id : Nat) (t : Task) :
    lookupTask (setTask h id t) id = some t := by
  induction h with
  | nil => simp [setTask, lookupTask]
  | cons hd tl ih =>
    obtain ⟨k, u⟩ := hd
    by_cases hk : k = id
    · simp [setTask, lookupTask, hk]
    · simp [setTask, lookupTask, hk, ih]

theorem lookupTask_setTask_ne (h : List (Nat × Task)) (id k : Nat) (t : Task)
    (hne : k ≠ id) : lookupTask (setTask h id t) k = lookupTask h k := by
  induction h with
  | nil =>
    simp only [setTask, lookupTask]
    rw [if_neg (fun hh => hne hh.symm)]
  | cons hd tl ih =>
    obtain ⟨k', u⟩ := hd
    by_cases hk : k' = id
    · subst hk
      simp only [setTask, if_pos rfl, lookupTask]
      rw [if_neg (fun hh => hne hh.symm), if_neg (fun hh => hne hh.symm)]
    · simp only [setTask, if_neg hk, lookupTask]
      by_cases hkk : k' = k
      · rw [if_pos hkk, if_pos hkk]
      · rw [if_neg hkk, if_neg hkk, ih]

theorem isSome_lookupTask_setTask (h : List (Nat × Task)) (id k : Nat) (t : Task) :
    (lookupTask (setTask h id t) k).isSome ↔ k = id ∨ (lookupTask h k).isSome := by
  by_cases hk : k = id
  · subst hk
    simp [lookupTask_setTask_self]
  · simp [lookupTask_setTask_ne h id k t hk, hk]

theorem mem_insertSet {l : List Nat} {a b : Nat} :
    a ∈ insertSet l b ↔ a = b ∨ a ∈ l := by
  by_cases hb : b ∈ l
  · simp only [insertSet, if_pos hb]
    constructor
    · exact Or.inr
    · rintro (rfl | h)
      · exact hb
      · exact h
  · simp [insertSet, if_neg hb, or_comm]

theorem nodup_insertSet {l : List Nat} {b : Nat} (h : l.Nodup) :
    (insertSet l b).Nodup := by
  by_cases hb : b ∈ l
  · simpa [insertSet, if_pos hb] using h
  · simp [insertSet, if_neg hb, List.nodup_append, h, hb]

theorem lane_putLane {α : Type} (q : TaskQueue α) (p p' : TaskPriority) (x : α) :
    (q.putLane p x).lane p' =
      if p' = p then q.lane p' ++ [x] else q.lane p' := by
  cases p <;> cases p' <;> simp [TaskQueue.putLane, TaskQueue.lane]

theorem mem_ids_putLane (q : TaskQueue Nat) (p : TaskPriority) (x a : Nat) :
    a ∈ (q.putLane p x).ids ↔ a ∈ q.ids ∨ a = x := by
  cases p <;> simp [TaskQueue.ids, TaskQueue.putLane] <;> tauto

theorem ids_putLane_perm (q : TaskQueue Nat) (p : TaskPriority) (x : Nat) :
    ((q.putLane p x).ids).Perm (x :: q.ids) := by
  obtain ⟨u, hi, m, l⟩ := q
  cases p
  case urgent =>
    have e1 : (u ++ [x]) ++ hi ++ m ++ l = u ++ x :: (hi ++ (m ++ l)) := by
      simp [List.append_assoc]
    have e2 : u ++ hi ++ m ++ l = u ++ (hi ++ (m ++ l)) := by
      simp [List.append_assoc]
    show ((u ++ [x]) ++ hi ++ m ++ l).Perm (x :: (u ++ hi ++ m ++ l))
    rw [e1, e2]
    exact List.perm_middle
  case high =>
    have e1 : u ++ (hi ++ [x]) ++ m ++ l = (u ++ hi) ++ x :: (m ++ l) := by
      simp [List.append_assoc]
    have e2 : u ++ hi ++ m ++ l = (u ++ hi) ++ (m ++ l) := by
      simp [List.append_assoc]
    show (u ++ (hi ++ [x]) ++ m ++ l).Perm (x :: (u ++ hi ++ m ++ l))
    rw [e1, e2]
    exact List.perm_middle
  case medium =>
    have e1 : u ++ hi ++ (m ++ [x]) ++ l = (u ++ hi ++ m) ++ x :: l := by
      simp [List.append_assoc]
    show (u ++ hi ++ (m ++ [x]) ++ l).Perm (x :: (u ++ hi ++ m ++ l))
    rw [e1]
    exact List.perm_middle
  case low =>
    have e1 : u ++ hi ++ m ++ (l ++ [x]) = (u ++ hi ++ m ++ l) ++ [x] := by
      simp [List.append_assoc]
    show (u ++ hi ++ m ++ (l ++ [x])).Perm (x :: (u ++ hi ++ m ++ l))
    rw [e1]
    exact List.perm_append_singleton x (u ++ hi ++ m ++ l)

theorem nodup_ids_putLane (q : TaskQueue Nat) (p : TaskPriority) (x : Nat)
    (h : q.ids.Nodup) (hx : x ∉ q.ids) : (q.putLane p x).ids.Nodup :=
  ((ids_putLane_perm q p x).nodup_iff).mpr (List.nodup_cons.mpr ⟨hx, h⟩)

theorem get_eq_ids (q : TaskQueue Nat) (x : Nat) (q' : TaskQueue Nat)
    (h : q.get = some (x, q')) : q.ids = x :: q'.ids := by
  obtain ⟨u, hi, m, l⟩ := q
  cases u with
  | cons a r =>
    simp [TaskQueue.get] at h
    obtain ⟨rfl, rfl⟩ := h
    simp [TaskQueue.ids]
  | nil =>
    cases hi with
    | cons a r =>
      simp [TaskQueue.get] at h
      obtain ⟨rfl, rfl⟩ := h
      simp [TaskQueue.ids]
    | nil =>
      cases m with
      | cons a r =>
        simp [TaskQueue.get] at h
        obtain ⟨rfl, rfl⟩ := h
        simp [TaskQueue.ids]
      | nil =>
        cases l with
        | cons a r =>
          simp [TaskQueue.get] at h
          obtain ⟨rfl, rfl⟩ := h
          simp [TaskQueue.ids]
        | nil => simp [TaskQueue.get] at h

/-! ### Branch equations for the runner operations -/

theorem submit_task_eq (s : TaskRunner) (n : String) (f : Nat → Except String Nat)
    (p : TaskPriority) (m : Nat) :
    s.submit_task n f p m =
      (s.nextId,
        { s with
          tasks := setTask s.tasks s.nextId
            { task_id := s.nextId, name := n, function := f, priority := p,
              status := .pending, created_at := s.clock, started_at := none,
              completed_at := none, result := none, error := none,
              retries := 0, max_retries := m }
          task_queue := s.task_queue.putLane p s.nextId
          nextId := s.nextId + 1
          clock := s.clock + 1 }) := rfl

/-! ### The structural invariant of the runner state -/

/-- Structural invariant maintained by every runner operation.  It
records which table-membership facts actually hold in the code — note
that it says nothing about the completed table being disjoint from the
queue or the active table, because the code does not maintain that. -/
structure Inv (s : TaskRunner) : Prop where
  queue_nodup : s.task_queue.ids.Nodup
  active_nodup : s.active_tasks.Nodup
  exec_nodup : s.executing.Nodup
  queue_active : ∀ id, id ∈ s.task_queue.ids → id ∉ s.active_tasks
  exec_active : ∀ id, id ∈ s.executing → id ∈ s.active_tasks
  queue_heap : ∀ id, id ∈ s.task_queue.ids → (lookupTask s.tasks id).isSome
  active_heap : ∀ id, id ∈ s.active_tasks → (lookupTask s.tasks id).isSome
  completed_heap : ∀ id, id ∈ s.completed_tasks → (lookupTask s.tasks id).isSome
  heap_lt : ∀ id, (lookupTask s.tasks id).isSome → id < s.nextId
  terminal_out : ∀ id t, lookupTask s.tasks id = some t →
    (t.status = .completed ∨ t.status = .failed) →
    id ∉ s.task_queue.ids ∧ id ∉ s.active_tasks

theorem inv_start (s : TaskRunner) (h : Inv s) : Inv s.start := by
  unfold TaskRunner.start
  split
  · exact h
  · exact ⟨h.queue_nodup, h.active_nodup, h.exec_nodup, h.queue_active, h.exec_active,
      h.queue_heap, h.active_heap, h.completed_heap, h.heap_lt, h.terminal_out⟩

theorem inv_stop (s : TaskRunner) (h : Inv s) : Inv (s.stop).1 := by
  unfold TaskRunner.stop
  split
  · exact ⟨h.queue_nodup, h.active_nodup, List.nodup_nil, h.queue_active,
      fun id hid => absurd hid (List.not_mem_nil id),
      h.queue_heap, h.active_heap, h.completed_heap, h.heap_lt, h.terminal_out⟩
  · exact h

theorem workerBegin_no_worker (s : TaskRunner)
    (h : ¬ s.is_running = true ∨ ¬ s.executing.length < s.workers) :
    workerBegin s = s := by
  unfold workerBegin
  rcases h with h | h
  · rw [if_neg h]
  · split <;> first | rfl | rw [if_neg h]

theorem workerBegin_empty (s : TaskRunner) (hget : s.task_queue.get = none) :
    workerBegin s = s := by
  unfold workerBegin
  rw [hget]
  split <;> [skip; rfl]
  split <;> rfl

theorem workerBegin_some (s : TaskRunner) (id0 : Nat) (q' : TaskQueue Nat) (t : Task)
    (hrun : s.is_running = true) (hfree : s.executing.length < s.workers)
    (hget : s.task_queue.get = some (id0, q'))
    (hlk : lookupTask s.tasks id0 = some t) :
    workerBegin s =
      { s with
        task_queue := q'
        active_tasks := insertSet s.active_tasks id0
        tasks := setTask s.tasks id0 (execBegin t s.clock)
        executing := s.executing ++ [id0]
        clock := s.clock + 1 } := by
  unfold workerBegin
  rw [if_pos hrun, if_pos hfree, hget]
  dsimp only
  rw [hlk]

theorem workerFinish_not_executing (s : TaskRunner) (id : Nat)
    (h : id ∉ s.executing) : workerFinish s id = s := by
  unfold workerFinish
  rw [if_neg h]

theorem workerFinish_some (s : TaskRunner) (id : Nat) (t : Task)
    (hx : id ∈ s.executing) (hlk : lookupTask s.tasks id = some t) :
    workerFinish s id =
      { s with
        tasks := setTask s.tasks id (execFinish t s.clock).1
        task_queue :=
          cond (execFinish t s.clock).2
            (s.task_queue.putLane (execFinish t s.clock).1.priority id)
            s.task_queue
        active_tasks := s.active_tasks.erase id
        completed_tasks := insertSet s.completed_tasks id
        executing := s.executing.erase id
        clock := s.clock + 1 } := by
  unfold workerFinish
  rw [if_pos hx, hlk]

theorem cancel_task_pos (s : TaskRunner) (id : Nat) (t : Task)
    (ha : id ∈ s.active_tasks) (hlk : lookupTask s.tasks id = some t) :
    s.cancel_task id =
      (true,
        { s with
          tasks := setTask s.tasks id
            { t with status := .cancelled, completed_at := some s.clock }
          clock := s.clock + 1 }) := by
  unfold TaskRunner.cancel_task
  rw [if_pos ha, hlk]

theorem cancel_task_neg (s : TaskRunner) (id : Nat)
    (ha : id ∉ s.active_tasks) : s.cancel_task id = (false, s) := by
  unfold TaskRunner.cancel_task
  rw [if_neg ha]

/-- Outcome branch of `_execute_task` on normal return (lines 185–197). -/
theorem execFinish_ok (t : Task) (now r : Nat)
    (hf : t.function t.retries = .ok r) :
    execFinish t now =
      ({ t with result := some r, status := .completed, completed_at := some now },
        false) := by
  unfold execFinish
  rw [hf]

/-- Outcome branch of `_execute_task` on failure with retries left
(lines 199–209). -/
theorem execFinish_error_retry (t : Task) (now : Nat) (e : String)
    (hf : t.function t.retries = .error e)
    (hr : t.retries + 1 ≤ t.max_retries) :
    execFinish t now =
      ({ t with error := some e, retries := t.retries + 1, status := .retrying },
        true) := by
  unfold execFinish
  rw [hf]
  dsimp only
  rw [if_pos hr]

/-- Outcome branch of `_execute_task` on failure with retries
exhausted (lines 210–215). -/
theorem execFinish_error_fail (t : Task) (now : Nat) (e : String)
    (hf : t.function t.retries = .error e)
    (hr : ¬ t.retries + 1 ≤ t.max_retries) :
    execFinish t now =
      ({ t with
          error := some e
          retries := t.retries + 1
          status := .failed
          completed_at := some now },
        false) := by
  unfold execFinish
  rw [hf]
  dsimp only
  rw [if_neg hr]

/-- A task is re-queued only in the Retrying branch. -/
theorem execFinish_terminal_no_requeue (t : Task) (now : Nat)
    (h : (execFinish t now).1.status = .completed ∨
      (execFinish t now).1.status = .failed) :
    (execFinish t now).2 = false := by
  cases hf : t.function t.retries with
  | ok r => rw [execFinish_ok t now r hf]
  | error e =>
    by_cases hr : t.retries + 1 ≤ t.max_retries
    · rw [execFinish_error_retry t now e hf hr] at h
      dsimp only at h
      rcases h with h | h <;> cases h
    · rw [execFinish_error_fail t now e hf hr]

/-- Preservation core for `workerFinish`: moving an active task out of
the active table into the completed table (optionally re-queueing it)
keeps the invariant, provided a terminal task is not re-queued. -/
theorem inv_finish_core (s : TaskRunner) (h : Inv s) (id0 : Nat) (t' : Task)
    (requeue : Bool) (hid0a : id0 ∈ s.active_tasks)
    (hterm : t'.status = .completed ∨ t'.status = .failed → requeue = false) :
    Inv { s with
      tasks := setTask s.tasks id0 t'
      task_queue :=
        cond requeue (s.task_queue.putLane t'.priority id0) s.task_queue
      active_tasks := s.active_tasks.erase id0
      completed_tasks := insertSet s.completed_tasks id0
      executing := s.executing.erase id0
      clock := s.clock + 1 } := by
  have hid0q : id0 ∉ s.task_queue.ids := fun hq => h.queue_active id0 hq hid0a
  have hid0heap : (lookupTask s.tasks id0).isSome := h.active_heap id0 hid0a
  cases requeue with
  | false =>
    constructor
    · exact h.queue_nodup
    · exact h.active_nodup.erase _
    · exact h.exec_nodup.erase _
    · intro id hid hmem
      have hpair := (h.active_nodup.mem_erase_iff).1 hmem
      exact h.queue_active id hid hpair.2
    · intro id hid
      have hpair := (h.exec_nodup.mem_erase_iff).1 hid
      exact (h.active_nodup.mem_erase_iff).2 ⟨hpair.1, h.exec_active id hpair.2⟩
    · intro id hid
      exact (isSome_lookupTask_setTask _ _ _ _).mpr (Or.inr (h.queue_heap id hid))
    · intro id hid
      exact (isSome_lookupTask_setTask _ _ _ _).mpr
        (Or.inr (h.active_heap id (List.mem_of_mem_erase hid)))
    · intro id hid
      refine (isSome_lookupTask_setTask _ _ _ _).mpr ?_
      rcases mem_insertSet.1 hid with h1 | h1
      · exact Or.inl h1
      · exact Or.inr (h.completed_heap id h1)
    · intro id hid
      rcases (isSome_lookupTask_setTask _ _ _ _).1 hid with h1 | h1
      · subst h1
        exact h.heap_lt id hid0heap
      · exact h.heap_lt id h1
    · intro id u hlk' hst
      by_cases hid : id = id0
      · subst hid
        dsimp only at hlk'
        rw [lookupTask_setTask_self] at hlk'
        injection hlk' with hlk'
        subst hlk'
        exact ⟨hid0q, fun hmem => ((h.active_nodup.mem_erase_iff).1 hmem).1 rfl⟩
      · dsimp only at hlk'
        rw [lookupTask_setTask_ne _ _ _ _ hid] at hlk'
        obtain ⟨hq, ha⟩ := h.terminal_out id u hlk' hst
        exact ⟨hq, fun hmem => ha (List.mem_of_mem_erase hmem)⟩
  | true =>
    have hnt : ¬ (t'.status = .completed ∨ t'.status = .failed) :=
      fun hc => absurd (hterm hc) (by decide)
    constructor
    · exact nodup_ids_putLane _ _ _ h.queue_nodup hid0q
    · exact h.active_nodup.erase _
    · exact h.exec_nodup.erase _
    · intro id hid hmem
      have hpair := (h.active_nodup.mem_erase_iff).1 hmem
      rcases (mem_ids_putLane _ _ _ _).1 hid with h1 | h1
      · exact h.queue_active id h1 hpair.2
      · exact hpair.1 h1
    · intro id hid
      have hpair := (h.exec_nodup.mem_erase_iff).1 hid
      exact (h.active_nodup.mem_erase_iff).2 ⟨hpair.1, h.exec_active id hpair.2⟩
    · intro id hid
      refine (isSome_lookupTask_setTask _ _ _ _).mpr ?_
      rcases (mem_ids_putLane _ _ _ _).1 hid with h1 | h1
      · exact Or.inr (h.queue_heap id h1)
      · exact Or.inl h1
    · intro id hid
      exact (isSome_lookupTask_setTask _ _ _ _).mpr
        (Or.inr (h.active_heap id (List.mem_of_mem_erase hid)))
    · intro id hid
      refine (isSome_lookupTask_setTask _ _ _ _).mpr ?_
      rcases mem_insertSet.1 hid with h1 | h1
      · exact Or.inl h1
      · exact Or.inr (h.completed_heap id h1)
    · intro id hid
      rcases (isSome_lookupTask_setTask _ _ _ _).1 hid with h1 | h1
      · subst h1
        exact h.heap_lt id hid0heap
      · exact h.heap_lt id h1
    · intro id u hlk' hst
      by_cases hid : id = id0
      · subst hid
        dsimp only at hlk'
        rw [lookupTask_setTask_self] at hlk'
        injection hlk' with hlk'
        subst hlk'
        exact absurd hst hnt
      · dsimp only at hlk'
        rw [lookupTask_setTask_ne _ _ _ _ hid] at hlk'
        obtain ⟨hq, ha⟩ := h.terminal_out id u hlk' hst
        refine ⟨fun hmem => ?_, fun hmem => ha (List.mem_of_mem_erase hmem)⟩
        rcases (mem_ids_putLane _ _ _ _).1 hmem with h1 | h1
        · exact hq h1
        · exact hid h1

theorem inv_finish (s : TaskRunner) (h : Inv s) (id0 : Nat) :
    Inv (workerFinish s id0) := by
  by_cases hx : id0 ∈ s.executing
  · cases hlk : lookupTask s.tasks id0 with
    | none =>
      unfold workerFinish
      rw [if_pos hx, hlk]
      exact h
    | some t =>
      rw [workerFinish_some s id0 t hx hlk]
      exact inv_finish_core s h id0 (execFinish t s.clock).1 (execFinish t s.clock).2
        (h.exec_active id0 hx) (execFinish_terminal_no_requeue t s.clock)
  · rw [workerFinish_not_executing s id0 hx]
    exact h

theorem inv_submit (s : TaskRunner) (h : Inv s) (n : String)
    (f : Nat → Except String Nat) (p : TaskPriority) (m : Nat) :
    Inv (s.submit_task n f p m).2 := by
  have hfresh : ∀ id, (lookupTask s.tasks id).isSome → id ≠ s.nextId :=
    fun id hid => Nat.ne_of_lt (h.heap_lt id hid)
  have hnotq : s.nextId ∉ s.task_queue.ids :=
    fun hq => absurd rfl (hfresh _ (h.queue_heap _ hq))
  have hnota : s.nextId ∉ s.active_tasks :=
    fun ha => absurd rfl (hfresh _ (h.active_heap _ ha))
  rw [submit_task_eq]
  dsimp only
  constructor
  · exact nodup_ids_putLane _ p _ h.queue_nodup hnotq
  · exact h.active_nodup
  · exact h.exec_nodup
  · intro id hid
    rcases (mem_ids_putLane _ _ _ _).1 hid with h1 | h1
    · exact h.queue_active id h1
    · subst h1
      exact hnota
  · exact h.exec_active
  · intro id hid
    refine (isSome_lookupTask_setTask _ _ _ _).mpr ?_
    rcases (mem_ids_putLane _ _ _ _).1 hid with h1 | h1
    · exact Or.inr (h.queue_heap id h1)
    · exact Or.inl h1
  · intro id hid
    exact (isSome_lookupTask_setTask _ _ _ _).mpr (Or.inr (h.active_heap id hid))
  · intro id hid
    exact (isSome_lookupTask_setTask _ _ _ _).mpr (Or.inr (h.completed_heap id hid))
  · intro id hid
    rcases (isSome_lookupTask_setTask _ _ _ _).1 hid with h1 | h1
    · subst h1
      exact Nat.lt_succ_self _
    · exact Nat.lt_trans (h.heap_lt id h1) (Nat.lt_succ_self _)
  · intro id t hlk hst
    by_cases hid : id = s.nextId
    · subst hid
      rw [lookupTask_setTask_self] at hlk
      injection hlk with hlk
      rw [← hlk] at hst
      dsimp only at hst
      rcases hst with h1 | h1 <;> cases h1
    · rw [lookupTask_setTask_ne _ _ _ _ hid] at hlk
      obtain ⟨hq, ha⟩ := h.terminal_out id t hlk hst
      refine ⟨fun hmem => ?_, ha⟩
      rcases (mem_ids_putLane _ _ _ _).1 hmem with h1 | h1
      · exact hq h1
      · exact hid h1

theorem inv_begin (s : TaskRunner) (h : Inv s) : Inv (workerBegin s) := by
  by_cases hrun : s.is_running = true
  case neg =>
    rw [workerBegin_no_worker s (Or.inl hrun)]
    exact h
  case pos =>
  by_cases hfree : s.executing.length < s.workers
  case neg =>
    rw [workerBegin_no_worker s (Or.inr hfree)]
    exact h
  case pos =>
  cases hget : s.task_queue.get with
  | none =>
    rw [workerBegin_empty s hget]
    exact h
  | some pr =>
  obtain ⟨id0, q'⟩ := pr
  have hids : s.task_queue.ids = id0 :: q'.ids := get_eq_ids _ _ _ hget
  have hid0q : id0 ∈ s.task_queue.ids := by
    rw [hids]
    exact List.mem_cons_self _ _
  have hid0a : id0 ∉ s.active_tasks := h.queue_active id0 hid0q
  have hid0e : id0 ∉ s.executing := fun he => hid0a (h.exec_active id0 he)
  have hq'sub : ∀ id, id ∈ q'.ids → id ∈ s.task_queue.ids := by
    intro id hid
    rw [hids]
    exact List.mem_cons_of_mem _ hid
  have hq'nodup : q'.ids.Nodup ∧ id0 ∉ q'.ids := by
    have hn := h.queue_nodup
    rw [hids, List.nodup_cons] at hn
    exact ⟨hn.2, hn.1⟩
  cases hlk : lookupTask s.tasks id0 with
  | none =>
    exfalso
    have hs := h.queue_heap id0 hid0q
    rw [hlk] at hs
    simp at hs
  | some t =>
  have hlkSome : (lookupTask s.tasks id0).isSome := by rw [hlk]; rfl
  rw [workerBegin_some s id0 q' t hrun hfree hget hlk]
  constructor
  · exact hq'nodup.1
  · exact nodup_insertSet h.active_nodup
  · dsimp only
    rw [List.nodup_append]
    refine ⟨h.exec_nodup, List.nodup_singleton _, ?_⟩
    intro b hb1 hb2
    rw [List.mem_singleton] at hb2
    subst hb2
    exact hid0e hb1
  · intro id hid
    have hidmem := hq'sub id hid
    have hne : id ≠ id0 := fun he => hq'nodup.2 (he ▸ hid)
    intro hmem
    rcases mem_insertSet.1 hmem with h1 | h1
    · exact hne h1
    · exact h.queue_active id hidmem h1
  · intro id hid
    dsimp only at hid
    rw [List.mem_append, List.mem_singleton] at hid
    rcases hid with h1 | h1
    · exact mem_insertSet.2 (Or.inr (h.exec_active id h1))
    · exact mem_insertSet.2 (Or.inl h1)
  · intro id hid
    exact (isSome_lookupTask_setTask _ _ _ _).mpr
      (Or.inr (h.queue_heap id (hq'sub id hid)))
  · intro id hid
    refine (isSome_lookupTask_setTask _ _ _ _).mpr ?_
    rcases mem_insertSet.1 hid with h1 | h1
    · exact Or.inl h1
    · exact Or.inr (h.active_heap id h1)
  · intro id hid
    exact (isSome_lookupTask_setTask _ _ _ _).mpr
      (Or.inr (h.completed_heap id hid))
  · intro id hid
    rcases (isSome_lookupTask_setTask _ _ _ _).1 hid with h1 | h1
    · subst h1
      exact h.heap_lt _ hlkSome
    · exact h.heap_lt id h1
  · intro id t' hlk' hst
    by_cases hid : id = id0
    · subst hid
      dsimp only at hlk'
      rw [lookupTask_setTask_self] at hlk'
      injection hlk' with hlk'
      rw [← hlk'] at hst
      dsimp only [execBegin] at hst
      rcases hst with h1 | h1 <;> cases h1
    · dsimp only at hlk'
      rw [lookupTask_setTask_ne _ _ _ _ hid] at hlk'
      obtain ⟨hq, ha⟩ := h.terminal_out id t' hlk' hst
      refine ⟨fun hmem => hq (hq'sub id hmem), fun hmem => ?_⟩
      rcases mem_insertSet.1 hmem with h1 | h1
      · exact hid h1
      · exact ha h1

theorem inv_cancel (s : TaskRunner) (h : Inv s) (id0 : Nat) :
    Inv (s.cancel_task id0).2 := by
  by_cases ha : id0 ∈ s.active_tasks
  case neg =>
    rw [cancel_task_neg s id0 ha]
    exact h
  case pos =>
  cases hlk : lookupTask s.tasks id0 with
  | none =>
    unfold TaskRunner.cancel_task
    rw [if_pos ha, hlk]
    exact h
  | some t =>
  have hlkSome : (lookupTask s.tasks id0).isSome := by rw [hlk]; rfl
  rw [cancel_task_pos s id0 t ha hlk]
  dsimp only
  constructor
  · exact h.queue_nodup
  · exact h.active_nodup
  · exact h.exec_nodup
  · exact h.queue_active
  · exact h.exec_active
  · intro id hid
    exact (isSome_lookupTask_setTask _ _ _ _).mpr (Or.inr (h.queue_heap id hid))
  · intro id hid
    exact (isSome_lookupTask_setTask _ _ _ _).mpr (Or.inr (h.active_heap id hid))
  · intro id hid
    exact (isSome_lookupTask_setTask _ _ _ _).mpr
      (Or.inr (h.completed_heap id hid))
  · intro id hid
    rcases (isSome_lookupTask_setTask _ _ _ _).1 hid with h1 | h1
    · subst h1
      exact h.heap_lt _ hlkSome
    · exact h.heap_lt id h1
  · intro id t' hlk' hst
    by_cases hid : id = id0
    · subst hid
      rw [lookupTask_setTask_self] at hlk'
      injection hlk' with hlk'
      rw [← hlk'] at hst
      dsimp only at hst
      rcases hst with h1 | h1 <;> cases h1
    · rw [lookupTask_setTask_ne _ _ _ _ hid] at hlk'
      exact h.terminal_out id t' hlk' hst

theorem inv_step (s : TaskRunner) (h : Inv s) (a : Action) : Inv (step s a) := by
  cases a with
  | start => exact inv_start s h
  | stop => exact inv_stop s h
  | submit n f p m => exact inv_submit s h n f p m
  | begin_exec => exact inv_begin s h
  | finish_exec id => exact inv_finish s h id
  | cancel id => exact inv_cancel s h id

theorem inv_init (w : Nat) : Inv (initRunner w) := by
  constructor <;>
    simp [initRunner, TaskQueue.empty, TaskQueue.ids, lookupTask]

theorem inv_run (s : TaskRunner) (h : Inv s) (as : List Action) :
    Inv (run s as) := by
  induction as generalizing s with
  | nil => exact h
  | cons a as ih => exact ih (step s a) (inv_step s h a)

theorem reachable_inv (s : TaskRunner) (h : Reachable s) : Inv s := by
  obtain ⟨w, as, rfl⟩ := h
  exact inv_run (initRunner w) (inv_init w) as

/-! ### Concrete work functions and helper facts used by the claims -/

/-- A callable that raises on every attempt. -/
def failingWork (msg : String) : Nat → Except String Nat :=
  fun _ => Except.error msg

/-- A callable that returns normally on every attempt. -/
def succeedingWork (r : Nat) : Nat → Except String Nat :=
  fun _ => Except.ok r

/-- A callable that raises on the first attempt and then succeeds. -/
def flakyWork (r : Nat) : Nat → Except String Nat :=
  fun k => if k = 0 then Except.error "boom" else Except.ok r

theorem get_putLane_empty {α : Type} (p : TaskPriority) (x : α) :
    (TaskQueue.empty.putLane p x).get = some (x, TaskQueue.empty) := by
  cases p <;> rfl

theorem get_task_status_none (s : TaskRunner) (id : Nat)
    (ha : id ∉ s.active_tasks) (hc : id ∉ s.completed_tasks) :
    s.get_task_status id = none := by
  unfold TaskRunner.get_task_status
  rw [if_neg ha, if_neg hc]

/-! ### Claims -/

/-- Claim C5: for every queue state, `TaskQueue.get` returns the front
(oldest inserted) task of the highest-priority non-empty lane, scanning
lanes in the fixed order Urgent, High, Medium, Low with FIFO order
within each lane (`get = getSpec`, where `getSpec` transcribes the
spec's scan), and `TaskQueue.put` appends the task to the lane matching
the task's priority, leaving every other lane unchanged; `put` is a
total function — it succeeds unconditionally and never blocks. -/
theorem c5_queue_priority_fifo (q : TaskQueue Task) (t : Task) :
    q.get = q.getSpec
  ∧ ∀ p, (q.put t).lane p =
      if p = t.priority then q.lane p ++ [t] else q.lane p := by
  constructor
  · obtain ⟨u, hi, m, l⟩ := q
    cases u <;> cases hi <;> cases m <;> cases l <;> rfl
  · intro p
    exact lane_putLane q t.priority p t

/-- Claim C8: `get_task_status` looks the id up in the active table
first, then in the completed table, returning the `to_dict` snapshot of
the task object found there; for an id absent from both tables it
returns the explicit not-found result `none` (it is a total function
and never throws). -/
theorem c8_get_task_status (s : TaskRunner) (id : Nat) (t : Task) :
    (id ∈ s.active_tasks → lookupTask s.tasks id = some t →
      s.get_task_status id = some t.to_dict)
  ∧ (id ∉ s.active_tasks → id ∈ s.completed_tasks →
      lookupTask s.tasks id = some t → s.get_task_status id = some t.to_dict)
  ∧ (id ∉ s.active_tasks → id ∉ s.completed_tasks →
      s.get_task_status id = none) := by
  refine ⟨?_, ?_, ?_⟩
  · intro ha hlk
    unfold TaskRunner.get_task_status
    rw [if_pos ha, hlk]
    rfl
  · intro ha hc hlk
    unfold TaskRunner.get_task_status
    rw [if_neg ha, if_pos hc, hlk]
    rfl
  · exact get_task_status_none s id

/-- Witness for C8 at concrete states: a running task is reported from
the active table, and an unknown id yields `none`. -/
theorem c8_get_task_status_witness :
    (run (initRunner 1)
        [Action.start, Action.submit "t" (succeedingWork 7) .medium 3,
          Action.begin_exec]).get_task_status 0 =
      some (Task.to_dict
        { task_id := 0, name := "t", function := succeedingWork 7,
          priority := .medium, status := .running, created_at := 0,
          started_at := some 1, completed_at := none, result := none,
          error := none, retries := 0, max_retries := 3 })
  ∧ (run (initRunner 1)
        [Action.start, Action.submit "t" (succeedingWork 7) .medium 3,
          Action.begin_exec]).get_task_status 5 = none := by
  constructor
  · exact (c8_get_task_status _ 0 _).1 (by decide) rfl
  · exact (c8_get_task_status _ 5
      { task_id := 0, name := "t", function := succeedingWork 7,
        priority := .medium, status := .running, created_at := 0,
        started_at := some 1, completed_at := none, result := none,
        error := none, retries := 0, max_retries := 3 }).2.2
      (by decide) (by decide)

/-- Claim C7: `cancel_task id` returns `true` iff `id` is currently in
the active table, in which case it marks the task Cancelled and stamps
`completed_at`; for any other id (completed, unknown, or still only
queued) it returns `false` and leaves the state untouched, and a
queued-but-not-cancelled task is nevertheless still dequeued and
executed later (the next `workerBegin` moves it to the active table
with status Running). -/
theorem c7_cancel_task (s : TaskRunner) (id : Nat) (t : Task)
    (q' : TaskQueue Nat) :
    ((s.cancel_task id).1 = true ↔ id ∈ s.active_tasks)
  ∧ (id ∈ s.active_tasks → lookupTask s.tasks id = some t →
      lookupTask (s.cancel_task id).2.tasks id =
        some { t with status := .cancelled, completed_at := some s.clock })
  ∧ (id ∉ s.active_tasks → (s.cancel_task id).2 = s)
  ∧ (id ∉ s.active_tasks → s.is_running = true →
      s.executing.length < s.workers →
      s.task_queue.get = some (id, q') → lookupTask s.tasks id = some t →
      id ∈ (workerBegin (s.cancel_task id).2).active_tasks ∧
        (lookupTask (workerBegin (s.cancel_task id).2).tasks id).map Task.status =
          some .running) := by
  refine ⟨?_, ?_, ?_, ?_⟩
  · by_cases ha : id ∈ s.active_tasks
    · cases hlk : lookupTask s.tasks id with
      | some t2 =>
        rw [cancel_task_pos s id t2 ha hlk]
        exact iff_of_true rfl ha
      | none =>
        unfold TaskRunner.cancel_task
        rw [if_pos ha, hlk]
        exact iff_of_true rfl ha
    · rw [cancel_task_neg s id ha]
      exact iff_of_false Bool.false_ne_true ha
  · intro ha hlk
    rw [cancel_task_pos s id t ha hlk]
    exact lookupTask_setTask_self _ _ _
  · intro ha
    rw [cancel_task_neg s id ha]
  · intro ha hrun hfree hget hlk
    rw [cancel_task_neg s id ha]
    rw [workerBegin_some s id q' t hrun hfree hget hlk]
    refine ⟨mem_insertSet.2 (Or.inl rfl), ?_⟩
    have hl : lookupTask (setTask s.tasks id (execBegin t s.clock)) id =
        some (execBegin t s.clock) := lookupTask_setTask_self _ _ _
    dsimp only
    rw [hl]
    rfl

/-- Witness for C7 at concrete states: cancelling a mid-execution task
returns true and marks it Cancelled; cancelling a queued task returns
false, changes nothing, and the task is still dequeued and set Running
afterwards. -/
theorem c7_cancel_task_witness :
    ((run (initRunner 1)
        [Action.start, Action.submit "t" (succeedingWork 7) .medium 3,
          Action.begin_exec]).cancel_task 0).1 = true
  ∧ (lookupTask ((run (initRunner 1)
        [Action.start, Action.submit "t" (succeedingWork 7) .medium 3,
          Action.begin_exec]).cancel_task 0).2.tasks 0).map Task.status =
      some .cancelled
  ∧ ((run (initRunner 1)
        [Action.start, Action.submit "t" (succeedingWork 7) .medium 3]).cancel_task
        0).1 = false
  ∧ ((run (initRunner 1)
        [Action.start, Action.submit "t" (succeedingWork 7) .medium 3]).cancel_task
        0).2 =
      run (initRunner 1)
        [Action.start, Action.submit "t" (succeedingWork 7) .medium 3]
  ∧ (lookupTask (workerBegin ((run (initRunner 1)
        [Action.start, Action.submit "t" (succeedingWork 7) .medium 3]).cancel_task
        0).2).tasks 0).map Task.status = some .running := by
  have h1 := c7_cancel_task
    (run (initRunner 1)
      [Action.start, Action.submit "t" (succeedingWork 7) .medium 3,
        Action.begin_exec]) 0
    { task_id := 0, name := "t", function := succeedingWork 7,
      priority := .medium, status := .running, created_at := 0,
      started_at := some 1, completed_at := none, result := none,
      error := none, retries := 0, max_retries := 3 }
    TaskQueue.empty
  have h2 := c7_cancel_task
    (run (initRunner 1)
      [Action.start, Action.submit "t" (succeedingWork 7) .medium 3]) 0
    { task_id := 0, name := "t", function := succeedingWork 7,
      priority := .medium, status := .pending, created_at := 0,
      started_at := none, completed_at := none, result := none,
      error := none, retries := 0, max_retries := 3 }
    TaskQueue.empty
  refine ⟨h1.1.mpr (by decide), ?_, ?_, h2.2.2.1 (by decide), ?_⟩
  · rw [h1.2.1 (by decide) rfl]
    rfl
  · have h3 := h2.1
    rw [cancel_task_neg _ 0 (by decide)]
  · exact (h2.2.2.2 (by decide) rfl (by decide) rfl rfl).2

/-- Claim C9 counterexample: in a state with a worker mid-execution
(`executing = [0]`), `stop` reports no partial-shutdown warning at all
— the second component of its result, the only channel a warning could
use, is `none` (the source `stop` is a cancel plus an untimed
`asyncio.gather`; no grace period exists). -/
theorem c9_counterexample :
    (run (initRunner 1)
        [Action.start, Action.submit "t" (succeedingWork 7) .low 3,
          Action.begin_exec]).executing = [0]
  ∧ ((run (initRunner 1)
        [Action.start, Action.submit "t" (succeedingWork 7) .low 3,
          Action.begin_exec]).stop).2 = none := by
  exact ⟨rfl, rfl⟩

/-- Claim C9 (amended): `stop` signals all workers to stop (cancelling
their in-flight waits, which abandons any execution in progress) and
waits for every worker via an untimed gather; it never surfaces any
partial-shutdown warning to its caller — its warning component is
`none` in every state — and after it returns `is_running` is false. -/
theorem c9_stop_no_warning (s : TaskRunner) :
    (s.stop).2 = none ∧ (s.stop).1.is_running = false ∧
      (s.stop).1.workers = cond s.is_running 0 s.workers := by
  unfold TaskRunner.stop
  cases hrun : s.is_running with
  | false => exact ⟨rfl, hrun, rfl⟩
  | true => exact ⟨rfl, rfl, rfl⟩

/-- One task whose work always fails, `max_retries = 1`, executed for
one attempt: the attempt fails with retries remaining. -/
def retryTrace : List Action :=
  [Action.start, Action.submit "t" (failingWork "boom") .medium 1,
    Action.begin_exec, Action.finish_exec 0]

/-- Claim C1 counterexample: after a failed attempt with retries
remaining (`retries = 1 ≤ max_retries = 1`, status Retrying), the task
*is* in the completed table — `_worker` moves every task there after
`_execute_task` returns, including on the retry path, contradicting the
claim that the task is not placed in the completed table by that
attempt. -/
theorem c1_counterexample :
    (lookupTask (run (initRunner 1) retryTrace).tasks 0).map Task.status =
      some .retrying
  ∧ (lookupTask (run (initRunner 1) retryTrace).tasks 0).map Task.retries = some 1
  ∧ (lookupTask (run (initRunner 1) retryTrace).tasks 0).map Task.max_retries =
      some 1
  ∧ 0 ∈ (run (initRunner 1) retryTrace).completed_tasks := by
  exact ⟨rfl, rfl, rfl, by decide⟩

/-- Claim C1 (amended): when a task's work fails with retries remaining
(`retries + 1 ≤ max_retries`), the worker sets its status to Retrying,
increments `retries`, and re-submits the same task object (same id,
same incremented `retries`) to the back of its priority's lane — but it
*also* moves the task's id into the completed table at the end of the
attempt (lines 165–168 run unconditionally). -/
theorem c1_retry_requeues_and_completes (s : TaskRunner) (id : Nat) (t : Task)
    (e : String) (hx : id ∈ s.executing) (hlk : lookupTask s.tasks id = some t)
    (hf : t.function t.retries = .error e)
    (hr : t.retries + 1 ≤ t.max_retries) :
    lookupTask (workerFinish s id).tasks id =
      some { t with error := some e, retries := t.retries + 1, status := .retrying }
  ∧ (workerFinish s id).task_queue.lane t.priority =
      s.task_queue.lane t.priority ++ [id]
  ∧ (∀ p, p ≠ t.priority → (workerFinish s id).task_queue.lane p =
      s.task_queue.lane p)
  ∧ id ∈ (workerFinish s id).completed_tasks := by
  rw [workerFinish_some s id t hx hlk, execFinish_error_retry t s.clock e hf hr]
  refine ⟨?_, ?_, ?_, ?_⟩
  · exact lookupTask_setTask_self _ _ _
  · dsimp only
    rw [Bool.cond_true, lane_putLane, if_pos rfl]
  · intro p hp
    dsimp only
    rw [Bool.cond_true, lane_putLane, if_neg hp]
  · exact mem_insertSet.2 (Or.inl rfl)

/-- Witness for C1's amended theorem at the concrete retry trace. -/
theorem c1_retry_witness :
    (lookupTask (workerFinish (run (initRunner 1)
        [Action.start, Action.submit "t" (failingWork "boom") .medium 1,
          Action.begin_exec]) 0).tasks 0).map Task.status = some .retrying
  ∧ 0 ∈ (workerFinish (run (initRunner 1)
        [Action.start, Action.submit "t" (failingWork "boom") .medium 1,
          Action.begin_exec]) 0).completed_tasks := by
  have h := c1_retry_requeues_and_completes
    (run (initRunner 1)
      [Action.start, Action.submit "t" (failingWork "boom") .medium 1,
        Action.begin_exec]) 0
    { task_id := 0, name := "t", function := failingWork "boom",
      priority := .medium, status := .running, created_at := 0,
      started_at := some 1, completed_at := none, result := none,
      error := none, retries := 0, max_retries := 1 }
    "boom" (by decide) rfl rfl (by decide)
  refine ⟨?_, h.2.2.2⟩
  rw [h.1]
  rfl

/-- Claim C2 counterexample: after `retryTrace` the id 0 is
simultaneously in the queue and in the completed table, and after the
retry is dequeued it is simultaneously in the active table and in the
completed table — both overlaps the claim rules out. -/
theorem c2_counterexample :
    (0 ∈ (run (initRunner 1) retryTrace).task_queue.ids
      ∧ 0 ∈ (run (initRunner 1) retryTrace).completed_tasks)
  ∧ (0 ∈ (run (initRunner 1) (retryTrace ++ [Action.begin_exec])).active_tasks
      ∧ 0 ∈ (run (initRunner 1) (retryTrace ++ [Action.begin_exec])).completed_tasks) := by
  exact ⟨⟨by decide, by decide⟩, ⟨by decide, by decide⟩⟩

/-- Claim C2 (amended): in every reachable state, a task id is in at
most one of the queue and the active table — those two never overlap.
(The completed table is *not* disjoint from them: a retrying task sits
in both the queue and the completed table, and in both the active and
completed tables while its retry runs — see the counterexample.) -/
theorem c2_queue_active_disjoint (s : TaskRunner) (h : Reachable s) (id : Nat) :
    ¬ (id ∈ s.task_queue.ids ∧ id ∈ s.active_tasks) := by
  rintro ⟨hq, ha⟩
  exact (reachable_inv s h).queue_active id hq ha

/-- Witness for C2's amended theorem at a concrete reachable state. -/
theorem c2_queue_active_disjoint_witness :
    ¬ (0 ∈ (run (initRunner 1) retryTrace).task_queue.ids
        ∧ 0 ∈ (run (initRunner 1) retryTrace).active_tasks) :=
  c2_queue_active_disjoint (run (initRunner 1) retryTrace)
    ⟨1, retryTrace, rfl⟩ 0

/-- One task that fails once and then succeeds, run to completion. -/
def flakyTrace : List Action :=
  [Action.start, Action.submit "t" (flakyWork 5) .medium 3,
    Action.begin_exec, Action.finish_exec 0,
    Action.begin_exec, Action.finish_exec 0]

/-- Claim C4 counterexample: a task that fails once and then succeeds
ends Completed with *both* `result` and `error` set (`error` is never
cleared), and after its first failed attempt it has `error` set while
in the non-terminal Retrying state — contradicting both the mutual
exclusivity and the only-on-terminal-failure parts of the claim. -/
theorem c4_counterexample :
    (lookupTask (run (initRunner 1) flakyTrace).tasks 0).map Task.status =
      some .completed
  ∧ (lookupTask (run (initRunner 1) flakyTrace).tasks 0).map Task.result =
      some (some 5)
  ∧ (lookupTask (run (initRunner 1) flakyTrace).tasks 0).map Task.error =
      some (some "boom")
  ∧ (lookupTask (run (initRunner 1) (flakyTrace.take 4)).tasks 0).map Task.status =
      some .retrying
  ∧ (lookupTask (run (initRunner 1) (flakyTrace.take 4)).tasks 0).map Task.error =
      some (some "boom") := by
  exact ⟨rfl, rfl, rfl, rfl, rfl⟩

/-- Claim C4 (amended): in `_execute_task`'s outcome branch, a
successful attempt sets `result` and leaves any previously recorded
`error` in place (it is never cleared), while a failed attempt sets
`error` — even when the task is re-queued in the non-terminal Retrying
state — and leaves `result` in place; so result/error are not mutually
exclusive and error is not set only on terminal failure. -/
theorem c4_result_error_not_exclusive (t : Task) (now : Nat) :
    ((execFinish t now).1.result =
      match t.function t.retries with
      | .ok r => some r
      | .error _ => t.result)
  ∧ ((execFinish t now).1.error =
      match t.function t.retries with
      | .ok _ => t.error
      | .error e => some e) := by
  cases hf : t.function t.retries with
  | ok r =>
    rw [execFinish_ok t now r hf]
    exact ⟨rfl, rfl⟩
  | error e =>
    by_cases hr : t.retries + 1 ≤ t.max_retries
    · rw [execFinish_error_retry t now e hf hr]
      exact ⟨rfl, rfl⟩
    · rw [execFinish_error_fail t now e hf hr]
      exact ⟨rfl, rfl⟩

/-- A successfully running task cancelled mid-execution. -/
def cancelMidTrace : List Action :=
  [Action.start, Action.submit "t" (succeedingWork 7) .medium 3,
    Action.begin_exec, Action.cancel 0]

/-- Claim C6 counterexample: a task marked Cancelled (a terminal
status) while its work is executing is overwritten to Completed when
the work finishes — `_execute_task` assigns the outcome status without
checking for cancellation. -/
theorem c6_counterexample :
    (lookupTask (run (initRunner 1) cancelMidTrace).tasks 0).map Task.status =
      some .cancelled
  ∧ (lookupTask (run (initRunner 1)
        (cancelMidTrace ++ [Action.finish_exec 0])).tasks 0).map Task.status =
      some .completed := by
  exact ⟨rfl, rfl⟩

/-- Claim C6 (amended): Completed and Failed are final — once a task's
status is Completed or Failed, no runner or worker step ever changes
that task again (its heap entry is preserved verbatim by every
action).  Cancelled is *not* final: a task cancelled while its work
executes is later overwritten by the work's outcome (see the
counterexample). -/
theorem c6_completed_failed_final (s : TaskRunner) (h : Reachable s) (id : Nat)
    (t : Task) (a : Action) (hlk : lookupTask s.tasks id = some t)
    (hst : t.status = .completed ∨ t.status = .failed) :
    lookupTask (step s a).tasks id = some t := by
  have hinv := reachable_inv s h
  obtain ⟨hqout, haout⟩ := hinv.terminal_out id t hlk hst
  cases a with
  | start =>
    simp only [step]
    unfold TaskRunner.start
    split <;> exact hlk
  | stop =>
    simp only [step]
    unfold TaskRunner.stop
    split <;> exact hlk
  | submit n f p m =>
    simp only [step]
    rw [submit_task_eq]
    have hne : id ≠ s.nextId :=
      Nat.ne_of_lt (hinv.heap_lt id (by rw [hlk]; rfl))
    dsimp only
    rw [lookupTask_setTask_ne _ _ _ _ hne]
    exact hlk
  | begin_exec =>
    simp only [step]
    by_cases hrun : s.is_running = true
    case neg =>
      rw [workerBegin_no_worker s (Or.inl hrun)]
      exact hlk
    case pos =>
    by_cases hfree : s.executing.length < s.workers
    case neg =>
      rw [workerBegin_no_worker s (Or.inr hfree)]
      exact hlk
    case pos =>
    cases hget : s.task_queue.get with
    | none =>
      rw [workerBegin_empty s hget]
      exact hlk
    | some pr =>
      obtain ⟨id0, q'⟩ := pr
      have hid0q : id0 ∈ s.task_queue.ids := by
        rw [get_eq_ids _ _ _ hget]
        exact List.mem_cons_self _ _
      have hne : id ≠ id0 := fun he => hqout (he ▸ hid0q)
      cases hlk0 : lookupTask s.tasks id0 with
      | none =>
        unfold workerBegin
        rw [if_pos hrun, if_pos hfree, hget]
        dsimp only
        rw [hlk0]
        exact hlk
      | some t0 =>
        rw [workerBegin_some s id0 q' t0 hrun hfree hget hlk0]
        dsimp only
        rw [lookupTask_setTask_ne _ _ _ _ hne]
        exact hlk
  | finish_exec id0 =>
    simp only [step]
    by_cases hx : id0 ∈ s.executing
    case neg =>
      rw [workerFinish_not_executing s id0 hx]
      exact hlk
    case pos =>
    have hne : id ≠ id0 := fun he => haout (he ▸ hinv.exec_active id0 hx)
    cases hlk0 : lookupTask s.tasks id0 with
    | none =>
      unfold workerFinish
      rw [if_pos hx, hlk0]
      exact hlk
    | some t0 =>
      rw [workerFinish_some s id0 t0 hx hlk0]
      dsimp only
      rw [lookupTask_setTask_ne _ _ _ _ hne]
      exact hlk
  | cancel id0 =>
    simp only [step]
    by_cases ha : id0 ∈ s.active_tasks
    case neg =>
      rw [cancel_task_neg s id0 ha]
      exact hlk
    case pos =>
    have hne : id ≠ id0 := fun he => haout (he ▸ ha)
    cases hlk0 : lookupTask s.tasks id0 with
    | none =>
      unfold TaskRunner.cancel_task
      rw [if_pos ha, hlk0]
      exact hlk
    | some t0 =>
      rw [cancel_task_pos s id0 t0 ha hlk0]
      dsimp only
      rw [lookupTask_setTask_ne _ _ _ _ hne]
      exact hlk

/-- Witness for C6's amended theorem: cancelling an already-completed
task changes nothing about it. -/
theorem c6_completed_final_witness :
    lookupTask (step (run (initRunner 1)
        [Action.start, Action.submit "t" (succeedingWork 7) .medium 3,
          Action.begin_exec, Action.finish_exec 0]) (Action.cancel 0)).tasks 0 =
      some
        { task_id := 0, name := "t", function := succeedingWork 7,
          priority := .medium, status := .completed, created_at := 0,
          started_at := some 1, completed_at := some 2, result := some 7,
          error := none, retries := 0, max_retries := 3 } :=
  c6_completed_failed_final
    (run (initRunner 1)
      [Action.start, Action.submit "t" (succeedingWork 7) .medium 3,
        Action.begin_exec, Action.finish_exec 0])
    ⟨1, [Action.start, Action.submit "t" (succeedingWork 7) .medium 3,
      Action.begin_exec, Action.finish_exec 0], rfl⟩
    0 _ (Action.cancel 0) rfl (Or.inl rfl)

/-- `a` performed on `s` is the dequeue step that removes `id` from the
queue: a `begin_exec` that actually fires (runner running, free
worker) and finds `id` at the front of the highest-priority non-empty
lane. -/
def dequeuesId (s : TaskRunner) (a : Action) (id : Nat) : Prop :=
  a = Action.begin_exec ∧ s.is_running = true ∧
    s.executing.length < s.workers ∧
    (s.task_queue.get).map Prod.fst = some id

/-- No step along the action sequence dequeues `id`. -/
def NotDequeuedAlong (id : Nat) : TaskRunner → List Action → Prop
  | _, [] => True
  | s, a :: as => ¬ dequeuesId s a id ∧ NotDequeuedAlong id (step s a) as

/-- One-step preservation: a queued-and-nowhere-else id stays queued
and out of both tables under any action that does not dequeue it. -/
theorem submitted_pending_step (s : TaskRunner) (a : Action) (id : Nat)
    (hinv : Inv s) (hact : id ∉ s.active_tasks) (hcomp : id ∉ s.completed_tasks)
    (hq : id ∈ s.task_queue.ids) (hlt : id < s.nextId)
    (hnd : ¬ dequeuesId s a id) :
    id ∉ (step s a).active_tasks ∧ id ∉ (step s a).completed_tasks ∧
      id ∈ (step s a).task_queue.ids ∧ id < (step s a).nextId := by
  cases a with
  | start =>
    simp only [step]
    unfold TaskRunner.start
    split <;> exact ⟨hact, hcomp, hq, hlt⟩
  | stop =>
    simp only [step]
    unfold TaskRunner.stop
    split <;> exact ⟨hact, hcomp, hq, hlt⟩
  | submit n f p m =>
    simp only [step]
    rw [submit_task_eq]
    exact ⟨hact, hcomp, (mem_ids_putLane _ _ _ _).2 (Or.inl hq),
      Nat.lt_trans hlt (Nat.lt_succ_self _)⟩
  | begin_exec =>
    simp only [step]
    by_cases hrun : s.is_running = true
    case neg =>
      rw [workerBegin_no_worker s (Or.inl hrun)]
      exact ⟨hact, hcomp, hq, hlt⟩
    case pos =>
    by_cases hfree : s.executing.length < s.workers
    case neg =>
      rw [workerBegin_no_worker s (Or.inr hfree)]
      exact ⟨hact, hcomp, hq, hlt⟩
    case pos =>
    cases hget : s.task_queue.get with
    | none =>
      rw [workerBegin_empty s hget]
      exact ⟨hact, hcomp, hq, hlt⟩
    | some pr =>
      obtain ⟨id0, q'⟩ := pr
      have hne : id0 ≠ id := by
        intro he
        exact hnd ⟨rfl, hrun, hfree, by rw [hget, he]; rfl⟩
      have hq' : id ∈ q'.ids := by
        have hids := get_eq_ids _ _ _ hget
        rw [hids] at hq
        rcases List.mem_cons.1 hq with h1 | h1
        · exact (hne h1.symm).elim
        · exact h1
      cases hlk0 : lookupTask s.tasks id0 with
      | none =>
        unfold workerBegin
        rw [if_pos hrun, if_pos hfree, hget]
        dsimp only
        rw [hlk0]
        exact ⟨hact, hcomp, hq', hlt⟩
      | some t0 =>
        rw [workerBegin_some s id0 q' t0 hrun hfree hget hlk0]
        refine ⟨?_, hcomp, hq', hlt⟩
        intro hmem
        rcases mem_insertSet.1 hmem with h1 | h1
        · exact hne h1.symm
        · exact hact h1
  | finish_exec id0 =>
    simp only [step]
    by_cases hx : id0 ∈ s.executing
    case neg =>
      rw [workerFinish_not_executing s id0 hx]
      exact ⟨hact, hcomp, hq, hlt⟩
    case pos =>
    have hne : id0 ≠ id := by
      intro he
      exact hinv.queue_active id hq (he ▸ hinv.exec_active id0 hx)
    cases hlk0 : lookupTask s.tasks id0 with
    | none =>
      unfold workerFinish
      rw [if_pos hx, hlk0]
      exact ⟨hact, hcomp, hq, hlt⟩
    | some t0 =>
      rw [workerFinish_some s id0 t0 hx hlk0]
      refine ⟨?_, ?_, ?_, hlt⟩
      · intro hmem
        exact hact (List.mem_of_mem_erase hmem)
      · intro hmem
        rcases mem_insertSet.1 hmem with h1 | h1
        · exact hne h1.symm
        · exact hcomp h1
      · dsimp only
        cases hreq : (execFinish t0 s.clock).2 with
        | false => exact hq
        | true => exact (mem_ids_putLane _ _ _ _).2 (Or.inl hq)
  | cancel id0 =>
    simp only [step]
    by_cases ha : id0 ∈ s.active_tasks
    case neg =>
      rw [cancel_task_neg s id0 ha]
      exact ⟨hact, hcomp, hq, hlt⟩
    case pos =>
    cases hlk0 : lookupTask s.tasks id0 with
    | none =>
      unfold TaskRunner.cancel_task
      rw [if_pos ha, hlk0]
      exact ⟨hact, hcomp, hq, hlt⟩
    | some t0 =>
      rw [cancel_task_pos s id0 t0 ha hlk0]
      exact ⟨hact, hcomp, hq, hlt⟩

/-- Run-level preservation of `submitted_pending_step`. -/
theorem submitted_pending_run (id : Nat) (as : List Action) :
    ∀ s : TaskRunner, Inv s → id ∉ s.active_tasks → id ∉ s.completed_tasks →
      id ∈ s.task_queue.ids → id < s.nextId → NotDequeuedAlong id s as →
      id ∉ (run s as).active_tasks ∧ id ∉ (run s as).completed_tasks ∧
        id ∈ (run s as).task_queue.ids := by
  induction as with
  | nil =>
    intro s _ ha hc hq _ _
    exact ⟨ha, hc, hq⟩
  | cons a as ih =>
    intro s hinv ha hc hq hlt hnd
    obtain ⟨hnd1, hnd2⟩ := hnd
    obtain ⟨ha2, hc2, hq2, hlt2⟩ :=
      submitted_pending_step s a id hinv ha hc hq hlt hnd1
    exact ih (step s a) (inv_step s hinv a) ha2 hc2 hq2 hlt2 hnd2

/-- Claim C10: from any reachable state, the id returned by
`submit_task` is in neither the active nor the completed table, and
stays out of both (while remaining in the queue) across any sequence
of further operations none of which dequeues it — so
`get_task_status` on that id answers the not-found result `none`
throughout the interval between submission and dequeue, even though
the task exists in the queue. -/
theorem c10_submitted_invisible_until_dequeued (s : TaskRunner)
    (h : Reachable s) (n : String) (f : Nat → Except String Nat)
    (p : TaskPriority) (m : Nat) (as : List Action)
    (hnd : NotDequeuedAlong s.nextId (s.submit_task n f p m).2 as) :
    (s.submit_task n f p m).1 = s.nextId
  ∧ s.nextId ∉ (run (s.submit_task n f p m).2 as).active_tasks
  ∧ s.nextId ∉ (run (s.submit_task n f p m).2 as).completed_tasks
  ∧ s.nextId ∈ (run (s.submit_task n f p m).2 as).task_queue.ids
  ∧ (run (s.submit_task n f p m).2 as).get_task_status s.nextId = none := by
  have hinv0 := reachable_inv s h
  have hfresh : ∀ k, (lookupTask s.tasks k).isSome → k ≠ s.nextId :=
    fun k hk => Nat.ne_of_lt (hinv0.heap_lt k hk)
  have h1 := submitted_pending_run s.nextId as (s.submit_task n f p m).2
    (inv_submit s hinv0 n f p m)
    (fun ha => absurd rfl (hfresh _ (hinv0.active_heap _ ha)))
    (fun hc => absurd rfl (hfresh _ (hinv0.completed_heap _ hc)))
    ((mem_ids_putLane s.task_queue p s.nextId s.nextId).2 (Or.inr rfl))
    (Nat.lt_succ_self s.nextId)
    hnd
  exact ⟨rfl, h1.1, h1.2.1, h1.2.2,
    get_task_status_none _ _ h1.1 h1.2.1⟩

/-- Witness for C10: a freshly submitted task is invisible to
`get_task_status` while it waits in the queue (here across a no-op
`cancel` of its own id, which returns false and dequeues nothing). -/
theorem c10_submitted_invisible_witness :
    (initRunner 1).nextId ∉
      (run ((initRunner 1).submit_task "t" (succeedingWork 7) .medium 3).2
        [Action.cancel 0]).active_tasks
  ∧ (run ((initRunner 1).submit_task "t" (succeedingWork 7) .medium 3).2
        [Action.cancel 0]).get_task_status (initRunner 1).nextId = none := by
  have h := c10_submitted_invisible_until_dequeued (initRunner 1)
    ⟨1, [], rfl⟩ "t" (succeedingWork 7) .medium 3 [Action.cancel 0]
    ⟨fun hd => Action.noConfusion hd.1, trivial⟩
  exact ⟨h.2.1, h.2.2.2.2⟩

/-! ### Claim C3: an always-failing task -/

/-- `k` worker begin/finish pairs on task id 0: `k` execution
attempts. -/
def attemptPairs : Nat → List Action
  | 0 => []
  | k + 1 => attemptPairs k ++ [Action.begin_exec, Action.finish_exec 0]

/-- Canonical run: one worker, one task whose work fails on every
attempt (`failingWork msg`, priority `p`, retry ceiling `m`), executed
for `k` attempts. -/
def failRun (n msg : String) (p : TaskPriority) (m k : Nat) : TaskRunner :=
  run (initRunner 1)
    ([Action.start, Action.submit n (failingWork msg) p m] ++ attemptPairs k)

/-- The task object after `j + 1` failed attempts with retries still
remaining. -/
def failTask (n msg : String) (p : TaskPriority) (m j : Nat) : Task :=
  { task_id := 0, name := n, function := failingWork msg, priority := p,
    status := .retrying, created_at := 0, started_at := some (2 * j + 1),
    completed_at := none, result := none, error := some msg,
    retries := j + 1, max_retries := m }

/-- State just after submission, before any attempt. -/
def failStartState (n msg : String) (p : TaskPriority) (m : Nat) : TaskRunner :=
  { task_queue := TaskQueue.empty.putLane p 0,
    tasks := [(0,
      { task_id := 0, name := n, function := failingWork msg, priority := p,
        status := .pending, created_at := 0, started_at := none,
        completed_at := none, result := none, error := none,
        retries := 0, max_retries := m })],
    active_tasks := [], completed_tasks := [], executing := [],
    workers := 1, max_workers := 1, is_running := true, nextId := 1, clock := 1 }

/-- State after `j + 1` failed attempts with retries remaining: the
task is Retrying, back in its lane, and (per the worker's unconditional
move) already in the completed table. -/
def failMidState (n msg : String) (p : TaskPriority) (m j : Nat) : TaskRunner :=
  { task_queue := TaskQueue.empty.putLane p 0,
    tasks := [(0, failTask n msg p m j)],
    active_tasks := [], completed_tasks := [0], executing := [],
    workers := 1, max_workers := 1, is_running := true, nextId := 1,
    clock := 2 * j + 3 }

/-- Terminal state after the `(m + 1)`-th (final) attempt: Failed,
error recorded, `completed_at` stamped, in the completed table, queue
empty. -/
def failFinalState (n msg : String) (p : TaskPriority) (m : Nat) : TaskRunner :=
  { task_queue := TaskQueue.empty,
    tasks := [(0,
      { task_id := 0, name := n, function := failingWork msg, priority := p,
        status := .failed, created_at := 0, started_at := some (2 * m + 1),
        completed_at := some (2 * m + 2), result := none, error := some msg,
        retries := m + 1, max_retries := m })],
    active_tasks := [], completed_tasks := [0], executing := [],
    workers := 1, max_workers := 1, is_running := true, nextId := 1,
    clock := 2 * m + 3 }

theorem run_append (s : TaskRunner) (l1 l2 : List Action) :
    run s (l1 ++ l2) = run (run s l1) l2 := by
  simp [run, List.foldl_append]

theorem failRun_succ (n msg : String) (p : TaskPriority) (m k : Nat) :
    failRun n msg p m (k + 1) =
      workerFinish (workerBegin (failRun n msg p m k)) 0 := by
  unfold failRun
  rw [show attemptPairs (k + 1) =
    attemptPairs k ++ [Action.begin_exec, Action.finish_exec 0] from rfl]
  rw [← List.append_assoc, run_append]
  rfl

theorem failRun_zero (n msg : String) (p : TaskPriority) (m : Nat) :
    failRun n msg p m 0 = failStartState n msg p m := rfl

theorem failStep_first (n msg : String) (p : TaskPriority) (m : Nat)
    (hm : 1 ≤ m) :
    workerFinish (workerBegin (failStartState n msg p m)) 0 =
      failMidState n msg p m 0 := by
  rw [workerBegin_some (failStartState n msg p m) 0 TaskQueue.empty _ rfl
    Nat.zero_lt_one (get_putLane_empty p 0) rfl]
  rw [workerFinish_some _ 0 _ (by simp) (lookupTask_setTask_self _ _ _)]
  rw [execFinish_error_retry _ _ msg rfl hm]
  rfl

theorem failStep_mid (n msg : String) (p : TaskPriority) (m j : Nat)
    (hj : j + 2 ≤ m) :
    workerFinish (workerBegin (failMidState n msg p m j)) 0 =
      failMidState n msg p m (j + 1) := by
  rw [workerBegin_some (failMidState n msg p m j) 0 TaskQueue.empty _ rfl
    Nat.zero_lt_one (get_putLane_empty p 0) rfl]
  rw [workerFinish_some _ 0 _ (by simp) (lookupTask_setTask_self _ _ _)]
  rw [execFinish_error_retry _ _ msg rfl hj]
  rfl

theorem failStep_last_zero (n msg : String) (p : TaskPriority) :
    workerFinish (workerBegin (failStartState n msg p 0)) 0 =
      failFinalState n msg p 0 := by
  rw [workerBegin_some (failStartState n msg p 0) 0 TaskQueue.empty _ rfl
    Nat.zero_lt_one (get_putLane_empty p 0) rfl]
  rw [workerFinish_some _ 0 _ (by simp) (lookupTask_setTask_self _ _ _)]
  rw [execFinish_error_fail _ _ msg rfl (by show ¬(0 + 1 ≤ 0); decide)]
  rfl

theorem failStep_last_mid (n msg : String) (p : TaskPriority) (j : Nat) :
    workerFinish (workerBegin (failMidState n msg p (j + 1) j)) 0 =
      failFinalState n msg p (j + 1) := by
  rw [workerBegin_some (failMidState n msg p (j + 1) j) 0 TaskQueue.empty _ rfl
    Nat.zero_lt_one (get_putLane_empty p 0) rfl]
  rw [workerFinish_some _ 0 _ (by simp) (lookupTask_setTask_self _ _ _)]
  rw [execFinish_error_fail _ _ msg rfl (by show ¬(j + 1 + 1 ≤ j + 1); omega)]
  rfl

theorem failFinal_stuck (n msg : String) (p : TaskPriority) (m : Nat) :
    workerFinish (workerBegin (failFinalState n msg p m)) 0 =
      failFinalState n msg p m := by
  rw [workerBegin_empty (failFinalState n msg p m) rfl]
  rw [workerFinish_not_executing (failFinalState n msg p m) 0 (List.not_mem_nil 0)]

theorem failRun_mid (n msg : String) (p : TaskPriority) (m : Nat) :
    ∀ j, j + 1 ≤ m → failRun n msg p m (j + 1) = failMidState n msg p m j := by
  intro j
  induction j with
  | zero =>
    intro h1
    rw [failRun_succ, failRun_zero]
    exact failStep_first n msg p m h1
  | succ j ih =>
    intro hj
    rw [failRun_succ, ih (by omega)]
    exact failStep_mid n msg p m j hj

theorem failRun_final (n msg : String) (p : TaskPriority) (m : Nat) :
    failRun n msg p m (m + 1) = failFinalState n msg p m := by
  cases m with
  | zero =>
    rw [failRun_succ, failRun_zero]
    exact failStep_last_zero n msg p
  | succ j =>
    rw [failRun_succ, failRun_mid n msg p (j + 1) j (by omega)]
    exact failStep_last_mid n msg p j

theorem failRun_ge (n msg : String) (p : TaskPriority) (m : Nat) :
    ∀ i, failRun n msg p m (m + 1 + i) = failFinalState n msg p m := by
  intro i
  induction i with
  | zero => exact failRun_final n msg p m
  | succ i ih =>
    rw [show m + 1 + (i + 1) = (m + 1 + i) + 1 from rfl, failRun_succ, ih]
    exact failFinal_stuck n msg p m

/-- Claim C3: a task whose work fails on every attempt reaches Failed
status exactly after `max_retries + 1` execution attempts (the status
is Failed after `k` attempts iff `k ≥ m + 1`), with final
`retries = max_retries + 1`, its error message recorded as text, its
`completed_at` stamped, and its id in the completed table. -/
theorem c3_always_fail_exact_attempts (n msg : String) (p : TaskPriority)
    (m : Nat) :
    (∀ k, (lookupTask (failRun n msg p m k).tasks 0).map Task.status =
        some .failed ↔ m + 1 ≤ k)
  ∧ lookupTask (failRun n msg p m (m + 1)).tasks 0 =
      some
        { task_id := 0, name := n, function := failingWork msg, priority := p,
          status := .failed, created_at := 0, started_at := some (2 * m + 1),
          completed_at := some (2 * m + 2), result := none, error := some msg,
          retries := m + 1, max_retries := m }
  ∧ 0 ∈ (failRun n msg p m (m + 1)).completed_tasks := by
  refine ⟨?_, ?_, ?_⟩
  · intro k
    rcases Nat.lt_or_ge k (m + 1) with hk | hk
    · constructor
      · intro hst
        exfalso
        cases k with
        | zero =>
          rw [failRun_zero] at hst
          simp [failStartState, lookupTask] at hst
        | succ j =>
          rw [failRun_mid n msg p m j (by omega)] at hst
          simp [failMidState, failTask, lookupTask] at hst
      · intro h2
        exact absurd h2 (by omega)
    · have hfe : failRun n msg p m k = failFinalState n msg p m := by
        have h3 := failRun_ge n msg p m (k - (m + 1))
        rwa [show m + 1 + (k - (m + 1)) = k from by omega] at h3
      constructor
      · intro _
        exact hk
      · intro _
        rw [hfe]
        rfl
  · rw [failRun_final]
    rfl
  · rw [failRun_final]
    exact List.mem_singleton.2 rfl

end TaskRunners
